import Mathlib

/-!
Shallow embedding of the starboard archiver's core pipeline
(`src/index.ts` of discord-starboard-archiver).

JavaScript strings are modelled as `List Char` so that every operation is
executable and kernel-decidable. Fallible asynchronous fetches are modelled
as `Except Unit`-valued functions carried by an explicit environment, and a
thrown `TypeError` (dereferencing `undefined`) as `Except JsError`. The
mutually recursive attachment resolution (`getAttachmentUrls` /
`getAdvancedAttachments`) is embedded with an explicit fuel parameter; every
theorem about it either holds for all fuel values or is evaluated at a
concrete, sufficient fuel.
-/

namespace Starboard

/-- JS string, modelled as its character list. -/
abbrev Str := List Char

/-- JS `String.prototype.startsWith`. -/
def strStartsWith : Str → Str → Bool
  | _, [] => true
  | [], _ :: _ => false
  | c :: s, p :: ps => c = p && strStartsWith s ps

/-- JS `String.prototype.endsWith`. -/
def strEndsWith (s p : Str) : Bool :=
  strStartsWith s.reverse p.reverse

/-- JS `String.prototype.split` with a one-character separator. Always
returns a non-empty list; `"".split(sep)` is `[""]`. -/
def splitOnChar (sep : Char) : Str → List Str
  | [] => [[]]
  | c :: rest =>
    let r := splitOnChar sep rest
    if c = sep then [] :: r else (c :: r.headD []) :: r.tail

/-- Decimal digits of a natural number (JS integer-to-string for the small
integers appearing in filenames). The first argument is fuel; `natToStr`
supplies enough. -/
def natDigitsAux : Nat → Nat → Str
  | 0, _ => []
  | fuel + 1, n =>
    if n < 10 then [Char.ofNat (48 + n)]
    else natDigitsAux fuel (n / 10) ++ [Char.ofNat (48 + n % 10)]

/-- JS number-to-string for a nonnegative integer. -/
def natToStr (n : Nat) : Str := natDigitsAux (n + 1) n

/-- Value of a decimal digit string (`c - '0'` accumulation), the exact
integer a snowflake digit string denotes. -/
def digitsToNat (s : Str) : Nat :=
  s.foldl (fun n c => n * 10 + (c.toNat - 48)) 0

/-- Binade search for `roundDouble`: the smallest `e` with `n < 2 ^ (53 + e)`
(first argument is fuel; `n` itself is enough). -/
def dblExpAux : Nat → Nat → Nat → Nat
  | 0, _, e => e
  | fuel + 1, n, e => if n < 2 ^ (53 + e) then e else dblExpAux fuel n (e + 1)

/-- The exponent of the binade of `n` relative to the 53-bit significand:
`0` when `n` fits exactly. -/
def dblExp (n : Nat) : Nat := dblExpAux n n 0

/-- JS `Number(digitString)` on a nonnegative integer: IEEE-754
double-precision rounding (round to nearest, ties to even). Overflow to
infinity is not modelled; it is unreachable for 64-bit snowflakes. -/
def roundDouble (n : Nat) : Nat :=
  let e := dblExp n
  if e = 0 then n
  else
    let p := 2 ^ e
    let q := n / p
    let r := n % p
    let h := p / 2
    if r < h then q * p
    else if h < r then (q + 1) * p
    else if q % 2 = 0 then q * p else (q + 1) * p

/-- A message embed: `description`, `image?.url`, `video?.url`, each possibly
absent (`null`/missing in the source). -/
structure Embed where
  description : Option Str
  image : Option Str
  video : Option Str
deriving DecidableEq

/-- A component inside an action row. A link button carries `url` when
`'url' in component && typeof component.url === 'string'` holds. -/
inductive SubComponent where
  | button (url : Option Str)
  | nonButton
deriving DecidableEq

/-- A top-level message component: an action row of sub-components, or
anything else (ignored by both button collectors). -/
inductive Component where
  | actionRow (components : List SubComponent)
  | other
deriving DecidableEq

/-- A fetched message, with exactly the fields the pipeline reads. -/
structure Msg where
  id : Str
  content : Str
  authorBot : Bool
  url : Str
  embeds : List Embed
  attachments : List Str
  components : List Component
deriving DecidableEq

/-- A channel as seen by `client.channels.fetch`: whether `isTextBased()`
holds, and its `messages.fetch` primitive. -/
structure Channel where
  textBased : Bool
  fetchMessage : Str → Except Unit Msg

/-- The external data source: `client.channels.fetch` (which may yield
`null`, a channel, or throw). -/
structure Env where
  fetchChannel : Str → Except Unit (Option Channel)

/-- The literal `'⭐ **'` the classifier tests for. -/
def starGlyphBold : Str := "⭐ **".toList

/-- The classifier `isStarboardMessage`: body starts with `'⭐ **'` and the author is a bot. -/
def isStarboardMessage (m : Msg) : Bool :=
  strStartsWith m.content starGlyphBold && m.authorBot

/-- One attempt of the star-count regex `⭐ \*\*(\d+)\*\*` at the head of the
text: the digit capture when the pattern matches here. -/
def starMatchAt (s : Str) : Option Str :=
  if strStartsWith s starGlyphBold then
    let t := s.drop starGlyphBold.length
    let ds := t.takeWhile Char.isDigit
    if ds.isEmpty then none
    else if strStartsWith (t.drop ds.length) ['*', '*'] then some ds else none
  else none

/-- Unanchored regex search: first position where the star pattern matches. -/
def starSearch : Str → Option Str
  | [] => none
  | c :: rest =>
    match starMatchAt (c :: rest) with
    | some ds => some ds
    | none => starSearch rest

/-- The extractor `getStars`: parsed capture of the star regex, `0` when there is no match. -/
def getStars (m : Msg) : Nat :=
  match starSearch m.content with
  | some ds => digitsToNat ds
  | none => 0

/-- JS `Array.prototype.join('\n\n')`. -/
def joinBlankLine : List Str → Str
  | [] => []
  | [s] => s
  | s :: t :: rest => s ++ ['\n', '\n'] ++ joinBlankLine (t :: rest)

/-- The extractor `getTextContent`: the embed descriptions joined with `'\n\n'` (a missing
description contributes the empty string, as JS `join` renders `null`),
`undefined` when the joined string is empty. -/
def getTextContent (m : Msg) : Option Str :=
  let s := joinBlankLine (m.embeds.map (fun e => e.description.getD []))
  if s.length > 0 then some s else none

/-- The base `'https://discord.com/channels'` of same-platform permalinks. -/
def channelsUrlBase : Str := "https://discord.com/channels".toList

/-- The two content-delivery URL bases excluded from tier 4. -/
def cdn1 : Str := "https://cdn.discordapp.com".toList

/-- The second content-delivery URL base. -/
def cdn2 : Str := "https://media.discordapp.net".toList

/-- Whether a button URL is a content-delivery (CDN) URL. -/
def isCdnUrl (u : Str) : Bool :=
  strStartsWith u cdn1 || strStartsWith u cdn2

/-- The link-button URLs of one component, in order (only action rows
contribute; only buttons with a string `url` field pass the filter). -/
def rowButtonUrls : Component → List Str
  | .actionRow subs =>
    subs.filterMap fun sc =>
      match sc with
      | .button (some u) => some u
      | _ => none
  | .other => []

/-- All link-button URLs of a message, in component order. -/
def allButtonUrls (m : Msg) : List Str :=
  m.components.flatMap rowButtonUrls

/-- The permalink buttons collected by `getAdvancedAttachments`: button URLs
that start with the same-platform permalink base. -/
def messageLinks (m : Msg) : List Str :=
  (allButtonUrls m).filter fun u => strStartsWith u channelsUrlBase

/-- The button URLs collected by `getAttachmentUrls` before the CDN check:
every button URL that is not a same-platform permalink. -/
def nonPermalinkButtons (m : Msg) : List Str :=
  (allButtonUrls m).filter fun u => !strStartsWith u channelsUrlBase

/-- Tier 1: direct file attachment URLs, native order. -/
def directAttachments (m : Msg) : List Str := m.attachments

/-- Tier 2: embed image URLs, one per embed that has one, embed order. -/
def embedImages (m : Msg) : List Str :=
  m.embeds.filterMap (fun e => e.image)

/-- Tier 3: embed video URLs, one per embed that has one, embed order. -/
def embedVideos (m : Msg) : List Str :=
  m.embeds.filterMap (fun e => e.video)

/-- Evaluation of `link.split('/')` then `splitLink[5]` / `splitLink[6]`, the channel and
message ids of a permalink (JS yields `undefined` past the end), followed by
`channels.fetch` and, on a text-based channel, `messages.fetch`. Returns the
fetched message, `none` when no message is fetched (null or non-text-based
channel), or the fetch error. -/
def resolveLink (env : Env) (link : Str) : Except Unit (Option Msg) :=
  let parts := splitOnChar '/' link
  let chId := (parts.get? 5).getD "undefined".toList
  let msgId := (parts.get? 6).getD "undefined".toList
  match env.fetchChannel chId with
  | .error e => .error e
  | .ok none => .ok none
  | .ok (some ch) =>
    if ch.textBased then
      match ch.fetchMessage msgId with
      | .error e => .error e
      | .ok m => .ok (some m)
    else .ok none

/-- Whether a link resolution rejected (either fetch threw). -/
def isFetchError : Except Unit (Option Msg) → Bool
  | .error _ => true
  | .ok _ => false

/-- Body of `getAdvancedAttachments`, abstracted over the recursive call into
`getAttachmentUrls`. `Promise.all` rejects as a whole, so one fetch error
empties the result (the `catch` leaves `attachments = []`). A link that
fetched no message leaves its JS `undefined` in place: the guard
`attachments !== null` does NOT remove `undefined`, and `flat` keeps it as a
single `none` element. -/
def advancedOf (recFn : Msg → List (Option Str)) (env : Env) (m : Msg) :
    List (Option Str) :=
  let results := (messageLinks m).map (resolveLink env)
  if results.any isFetchError then []
  else
    results.flatMap fun r =>
      match r with
      | .ok (some m') => recFn m'
      | .ok none => [none]
      | .error _ => []

/-- Assembly of `getAttachmentUrls` around an already-computed second-tier
list: tiers 1-3, then the button links — with CDN URLs removed exactly when
at least one button link is a CDN URL, in which case the second-tier list is
appended. -/
def urlsCore (m : Msg) (adv : List (Option Str)) : List (Option Str) :=
  let bl := nonPermalinkButtons m
  if !bl.isEmpty && !(bl.filter isCdnUrl).isEmpty then
    (directAttachments m ++ embedImages m ++ embedVideos m ++
      bl.filter (fun u => !isCdnUrl u)).map some ++ adv
  else
    (directAttachments m ++ embedImages m ++ embedVideos m ++ bl).map some

/-- The resolver `getAttachmentUrls`, with fuel bounding the depth of the mutual
recursion with `getAdvancedAttachments` (the source recurses unboundedly; at
fuel `0` the second-tier list is cut off empty). -/
def getAttachmentUrls : Nat → Env → Msg → List (Option Str)
  | 0, _, m => urlsCore m []
  | fuel + 1, env, m =>
    urlsCore m (advancedOf (fun m' => getAttachmentUrls fuel env m') env m)

/-- The resolver `getAdvancedAttachments`: second-tier resolution at the given recursion
depth for the inner `getAttachmentUrls` calls. -/
def getAdvancedAttachments (fuel : Nat) (env : Env) (m : Msg) :
    List (Option Str) :=
  advancedOf (fun m' => getAttachmentUrls fuel env m') env m

/-- One archived attachment: source URL and derived local filename. -/
structure AttachmentRec where
  url : Str
  localFile : Str
deriving DecidableEq

/-- The runtime error raised by dereferencing JS `undefined`
(`attachment.split` on an `undefined` array element). -/
inductive JsError where
  | typeError
deriving DecidableEq

/-- One `MessageArchive` record as persisted to `metadata.json`. -/
structure MessageArchive where
  snowflake : Str
  archiveId : Str
  url : Str
  stars : Nat
  textContent : Option Str
  attachments : List AttachmentRec
deriving DecidableEq

/-- Evaluation of `attachment.split('.').pop()?.split('?')[0]`: the text after the last
dot of the whole URL, cut at the first `'?'` after it. `none` only when
`pop()` yields `undefined`, which cannot happen for a string input. -/
def rawExt (url : Str) : Option Str :=
  ((splitOnChar '.' url).getLast?).map fun s => (splitOnChar '?' s).headD []

/-- The suffix `':large'`. -/
def largeTail : Str := ":large".toList

/-- Evaluation of `ext.endsWith(':large') ? ext.slice(0, -6) : ext`. -/
def stripLarge (e : Str) : Str :=
  if strEndsWith e largeTail then e.take (e.length - 6) else e

/-- The filename `{archiveId}_{stars}-stars_{n}.{ext}`. -/
def localFileName (aid : Str) (stars n : Nat) (ext : Str) : Str :=
  aid ++ ['_'] ++ natToStr stars ++ "-stars_".toList ++ natToStr n ++
    ['.'] ++ ext

/-- The loop of `getAttachments` over the resolved URL list, carrying
`attachmentNumber` (incremented only when an attachment is pushed). A `none`
element is JS `undefined`: `undefined.split('.')` throws, so the whole call
fails with a `TypeError`. An empty extension (`!ext`) skips the URL without
consuming an index. -/
def buildAttachments (aid : Str) (stars : Nat) :
    Nat → List (Option Str) → Except JsError (List AttachmentRec)
  | _, [] => .ok []
  | _, none :: _ => .error .typeError
  | n, some url :: rest =>
    match rawExt url with
    | none => buildAttachments aid stars n rest
    | some e =>
      if e.isEmpty then buildAttachments aid stars n rest
      else
        match buildAttachments aid stars (n + 1) rest with
        | .error err => .error err
        | .ok tail =>
          .ok ({ url := url,
                 localFile := localFileName aid stars n (stripLarge e) } :: tail)

/-- The builder `getAttachments`: resolve the URL list, then derive filenames. -/
def getAttachments (fuel : Nat) (env : Env) (m : Msg) (aid : Str)
    (stars : Nat) : Except JsError (List AttachmentRec) :=
  buildAttachments aid stars 0 (getAttachmentUrls fuel env m)

/-- The builder `processMessage`: star count and text content via the classifier, then
the attachment list; returns the finished record (or propagates the
`TypeError` of a crashed attachment loop). `aid` stands for the fresh
`uuidV4()` of this attempt. -/
def processMessage (fuel : Nat) (env : Env) (aid : Str) (m : Msg) :
    Except JsError MessageArchive :=
  let stars := getStars m
  let textContent := getTextContent m
  match getAttachments fuel env m aid stars with
  | .error e => .error e
  | .ok atts =>
    .ok { snowflake := m.id, archiveId := aid, url := m.url, stars := stars,
          textContent := textContent, attachments := atts }

/-- The in-memory `Map<string, MessageArchive>` in insertion order. -/
abbrev Collection := List (Str × MessageArchive)

/-- Evaluation of `messages.has(id)`. -/
def hasKey (c : Collection) (k : Str) : Bool :=
  c.any fun p => p.1 = k

/-- The `Number(snowflake)` sort key of a record. -/
def jsNumberOfId (s : Str) : Nat := roundDouble (digitsToNat s)

/-- The flush comparator `(a, b) => Number(a.snowflake) - Number(b.snowflake)`
read as a boolean "a may precede b". -/
def archiveLe (a b : MessageArchive) : Bool :=
  jsNumberOfId a.snowflake ≤ jsNumberOfId b.snowflake

/-- The flush `saveMessageCollection`: the map's values in insertion order, sorted
stably by the `Number` comparator — the array serialized over the snapshot
file. -/
def saveMessageCollection (c : Collection) : List MessageArchive :=
  (c.map Prod.snd).mergeSort archiveLe

/-- One iteration of the walk loop for one fetched message: skip non-starboard
messages and already-archived ids; otherwise process and append. Also yields
the URLs downloaded for the message (those of the record's attachments, in
order) — empty on a skip. -/
def walkStep (fuel : Nat) (env : Env) (aid : Str) (c : Collection) (m : Msg) :
    Except JsError (Collection × List Str) :=
  if !isStarboardMessage m then .ok (c, [])
  else if hasKey c m.id then .ok (c, [])
  else
    match processMessage fuel env aid m with
    | .error e => .error e
    | .ok r => .ok (c ++ [(m.id, r)], r.attachments.map (fun a => a.url))

/-- The walk over a list of fetched messages, threading a counter into the
fresh-id generator and the collection; stops with the error when processing
a message crashes. -/
def walkRun (fuel : Nat) (env : Env) (aidGen : Nat → Str) :
    Nat → Collection → List Msg → Except JsError (Nat × Collection)
  | n, c, [] => .ok (n, c)
  | n, c, m :: ms =>
    if !isStarboardMessage m || hasKey c m.id then
      walkRun fuel env aidGen n c ms
    else
      match processMessage fuel env (aidGen n) m with
      | .error e => .error e
      | .ok r => walkRun fuel env aidGen (n + 1) (c ++ [(m.id, r)]) ms

/-- Every state of the collection at the message boundaries of the walk —
the states an interrupt-triggered flush can observe (the handler runs
between completed messages; a crash ends the run with no further state). -/
def walkTrace (fuel : Nat) (env : Env) (aidGen : Nat → Str) :
    Nat → Collection → List Msg → List Collection
  | _, c, [] => [c]
  | n, c, m :: ms =>
    c ::
      (if !isStarboardMessage m || hasKey c m.id then
        walkTrace fuel env aidGen n c ms
      else
        match processMessage fuel env (aidGen n) m with
        | .error _ => []
        | .ok r => walkTrace fuel env aidGen (n + 1) (c ++ [(m.id, r)]) ms)

/-- The pattern the spec's classifier contract describes: the body begins
with the star glyph, a space, `'**'`, one or more digits, and `'**'`
(stated from the spec's words, to compare with `isStarboardMessage`). -/
def specArchivablePattern (s : Str) : Bool :=
  strStartsWith s starGlyphBold &&
    (let t := s.drop starGlyphBold.length
     let ds := t.takeWhile Char.isDigit
     !ds.isEmpty && strStartsWith (t.drop ds.length) ['*', '*'])

/-- A message's tier 1-3 attachments (direct attachments, embed images,
embed videos), the part the spec says second-tier resolution extracts. -/
def specTier123 (m : Msg) : List Str :=
  directAttachments m ++ embedImages m ++ embedVideos m

/-- Second-tier resolution as the spec words it: fetch each message
referenced by a same-platform permalink button and append that message's own
tier 1-3 attachments, exactly one hop deep (stated from the spec's words, to
compare with `getAdvancedAttachments`). -/
def specOneHopSecondTier (env : Env) (m : Msg) : List Str :=
  (messageLinks m).flatMap fun l =>
    match resolveLink env l with
    | .ok (some m') => specTier123 m'
    | _ => []

/-- The file extension as the spec words it: from the URL's path segment
(the text after the last `'/'`), after stripping a query string and a
trailing `':large'` suffix; `none` when the segment has no dot or nothing
after its last dot (stated from the spec's words, to compare with the
code's `rawExt`). -/
def specPathSegmentExt (url : Str) : Option Str :=
  let q := (splitOnChar '?' url).headD []
  let seg := ((splitOnChar '/' q).getLast?).getD []
  let seg' := if strEndsWith seg largeTail then seg.take (seg.length - 6) else seg
  let parts := splitOnChar '.' seg'
  if parts.length < 2 then none
  else
    match parts.getLast? with
    | some e => if e.isEmpty then none else some e
    | none => none

/-- Tier 4 as the spec words it: link-button URLs that are neither
content-delivery URLs nor same-platform message permalinks. -/
def plainLinkButtons (m : Msg) : List Str :=
  (allButtonUrls m).filter fun u =>
    !strStartsWith u channelsUrlBase && !isCdnUrl u

/-- Whether the message's button links trigger second-tier resolution: some
button link is a content-delivery URL. -/
def cdnTriggered (m : Msg) : Bool :=
  let bl := nonPermalinkButtons m
  !bl.isEmpty && !(bl.filter isCdnUrl).isEmpty

/-- Tier 5 of the resolved sequence: the second-tier attachments when
triggered, else nothing. -/
def secondTier (fuel : Nat) (env : Env) (m : Msg) : List (Option Str) :=
  if cdnTriggered m then
    match fuel with
    | 0 => []
    | f + 1 => getAdvancedAttachments f env m
  else []

/-- The extension under which the code keeps a URL: the non-empty text after
the URL's last dot (query-stripped), with a trailing `':large'` removed. -/
def keptExt (url : Str) : Option Str :=
  match rawExt url with
  | none => none
  | some e => if e.isEmpty then none else some (stripLarge e)

end Starboard

namespace Starboard

/-- A bot message whose body starts with the star glyph and `'**'` but with
no digits after it. -/
def msgNoDigits : Msg :=
  { id := "1".toList, content := "⭐ **x".toList, authorBot := true,
    url := [], embeds := [], attachments := [], components := [] }

/-- An external page URL (neither CDN nor permalink). -/
def pageUrl : Str := "https://example.org/page".toList

/-- A CDN button URL, which triggers second-tier resolution. -/
def cdnButtonUrl : Str := "https://cdn.discordapp.com/attachments/x/y/z.png".toList

/-- A same-platform permalink to message `m2` in channel `c2`. -/
def permalinkHop : Str := "https://discord.com/channels/g/c2/m2".toList

/-- The cross-referenced message: no direct media, one plain link button. -/
def msgLinked : Msg :=
  { id := "m2".toList, content := [], authorBot := true, url := [],
    embeds := [], attachments := [],
    components := [.actionRow [.button (some pageUrl)]] }

/-- A starboard message with a CDN button and a permalink button. -/
def msgOuter : Msg :=
  { id := "m1".toList, content := [], authorBot := true, url := [],
    embeds := [], attachments := [],
    components := [.actionRow [.button (some cdnButtonUrl),
                               .button (some permalinkHop)]] }

/-- The text channel `c2`, serving message `m2`. -/
def chanHop : Channel :=
  { textBased := true,
    fetchMessage := fun s => if s = "m2".toList then .ok msgLinked else .error () }

/-- An environment in which channel `c2` exists and is text-based. -/
def envHop : Env :=
  { fetchChannel := fun s => if s = "c2".toList then .ok (some chanHop) else .ok none }

/-- A permalink into channel `c3`. -/
def permalinkVoice : Str := "https://discord.com/channels/g/c3/m3".toList

/-- A message with a CDN button and a permalink whose channel is not
text-based. -/
def msgVoiceRef : Msg :=
  { id := "m4".toList, content := [], authorBot := true, url := [],
    embeds := [], attachments := [],
    components := [.actionRow [.button (some cdnButtonUrl),
                               .button (some permalinkVoice)]] }

/-- A channel that is not text-based (e.g. a voice channel). -/
def chanVoice : Channel :=
  { textBased := false, fetchMessage := fun _ => .error () }

/-- An environment in which channel `c3` resolves to a non-text-based
channel. -/
def envVoice : Env :=
  { fetchChannel := fun s => if s = "c3".toList then .ok (some chanVoice) else .ok none }

/-- An environment in which every channel fetch rejects. -/
def envFail : Env := { fetchChannel := fun _ => .error () }

/-- A URL whose path segment has no extension (the only dot is in the
host). -/
def videoUrl : Str := "https://example.com/video".toList

/-- The value `2 ^ 53 + 1` as a decimal snowflake string. -/
def snow993 : Str := "9007199254740993".toList

/-- The value `2 ^ 53` as a decimal snowflake string. -/
def snow992 : Str := "9007199254740992".toList

/-- A minimal record carrying a given snowflake. -/
def recOf (s : Str) : MessageArchive :=
  { snowflake := s, archiveId := [], url := [], stars := 0,
    textContent := none, attachments := [] }

/-- An embed with no description, image or video. -/
def emptyEmbed : Embed := { description := none, image := none, video := none }

/-- A message with two embeds, both lacking a description. -/
def msgTwoEmbeds : Msg :=
  { id := "9".toList, content := [], authorBot := true, url := [],
    embeds := [emptyEmbed, emptyEmbed], attachments := [], components := [] }

/-- An environment with no channels. -/
def env0 : Env := { fetchChannel := fun _ => .ok none }

/-- A fixed fresh-id generator. -/
def aidGen0 : Nat → Str := fun _ => "a".toList

/-- A starboard message with three stars and no media. -/
def msgSimple : Msg :=
  { id := "7".toList, content := "⭐ **3**".toList, authorBot := true,
    url := [], embeds := [], attachments := [], components := [] }

/-- The complete record `processMessage` produces for `msgSimple`. -/
def recSimple : MessageArchive :=
  { snowflake := "7".toList, archiveId := "a".toList, url := [], stars := 3,
    textContent := none, attachments := [] }

end Starboard

namespace Starboard

lemma plainLinkButtons_eq (m : Msg) :
    plainLinkButtons m = (nonPermalinkButtons m).filter (fun u => !isCdnUrl u) := by
  simp only [plainLinkButtons, nonPermalinkButtons, List.filter_filter]
  apply List.filter_congr
  intro u _
  exact Bool.and_comm _ _

lemma filter_not_of_filter_nil {α : Type} {p : α → Bool} {l : List α}
    (h : l.filter p = []) : l.filter (fun a => !p a) = l := by
  rw [List.filter_eq_self]
  intro a ha
  simp only [List.filter_eq_nil_iff] at h
  simpa using h a ha

lemma urlsCore_eq (m : Msg) (adv : List (Option Str)) :
    urlsCore m adv =
      (specTier123 m ++ plainLinkButtons m).map some ++
        (if cdnTriggered m then adv else []) := by
  by_cases h : cdnTriggered m = true
  · have hc : (!(nonPermalinkButtons m).isEmpty &&
        !((nonPermalinkButtons m).filter isCdnUrl).isEmpty) = true := by
      rw [cdnTriggered] at h; exact h
    rw [urlsCore, specTier123, plainLinkButtons_eq]
    simp [hc, h]
  · have hc : (!(nonPermalinkButtons m).isEmpty &&
        !((nonPermalinkButtons m).filter isCdnUrl).isEmpty) = false := by
      rw [cdnTriggered] at h; simpa using h
    have hbl : plainLinkButtons m = nonPermalinkButtons m := by
      rw [plainLinkButtons_eq]
      rcases Bool.and_eq_false_iff.mp hc with h' | h'
      · simp only [Bool.not_eq_false', List.isEmpty_iff] at h'
        simp [h']
      · simp only [Bool.not_eq_false', List.isEmpty_iff] at h'
        exact filter_not_of_filter_nil h'
    have h2 : cdnTriggered m = false := by
      rw [cdnTriggered]; exact hc
    rw [urlsCore, specTier123, hbl]
    simp [hc, h2]

lemma getAttachmentUrls_eq (fuel : Nat) (env : Env) (m : Msg) :
    getAttachmentUrls fuel env m =
      (specTier123 m ++ plainLinkButtons m).map some ++ secondTier fuel env m := by
  cases fuel with
  | zero =>
    rw [getAttachmentUrls, urlsCore_eq, secondTier]
  | succ f =>
    rw [getAttachmentUrls, urlsCore_eq]
    rfl

lemma advancedOf_of_fetchError (recFn : Msg → List (Option Str)) (env : Env)
    (m : Msg) (h : ((messageLinks m).map (resolveLink env)).any isFetchError = true) :
    advancedOf recFn env m = [] := by
  rw [advancedOf]
  simp only [h, if_true]

lemma infix_flatMap {α β : Type} (g : α → List β) {a : α} :
    ∀ {l : List α}, a ∈ l → g a <:+: l.flatMap g := by
  intro l hl
  induction l with
  | nil => cases hl
  | cons x t ih =>
    rcases List.mem_cons.mp hl with rfl | hmem
    · exact ⟨[], t.flatMap g, by simp⟩
    · obtain ⟨u, v, huv⟩ := ih hmem
      exact ⟨g x ++ u, v, by simp [huv]⟩

lemma advancedOf_contrib (recFn : Msg → List (Option Str)) (env : Env)
    (m : Msg) (link : Str) (m' : Msg) (hmem : link ∈ messageLinks m)
    (hok : ((messageLinks m).map (resolveLink env)).any isFetchError = false)
    (hres : resolveLink env link = .ok (some m')) :
    recFn m' <:+: advancedOf recFn env m := by
  rw [advancedOf]
  simp only [hok, Bool.false_eq_true, if_false]
  rw [List.flatMap_map]
  have := infix_flatMap
    (fun l => match resolveLink env l with
      | .ok (some mm) => recFn mm
      | .ok none => [none]
      | .error _ => []) hmem
  simpa [hres] using this

lemma buildAttachments_of_defined (aid : Str) (stars : Nat) :
    ∀ (urls : List Str) (n : Nat),
      buildAttachments aid stars n (urls.map some) =
        .ok (((urls.filterMap fun u => (keptExt u).map fun e => (u, e)).enumFrom n).map
          fun p => { url := p.2.1, localFile := localFileName aid stars p.1 p.2.2 }) := by
  intro urls
  induction urls with
  | nil => intro n; rfl
  | cons u rest ih =>
    intro n
    rw [List.map_cons, buildAttachments]
    cases hre : rawExt u with
    | none =>
      have hk : keptExt u = none := by simp [keptExt, hre]
      simp only [List.filterMap_cons, hk]
      exact ih n
    | some e =>
      by_cases he : e.isEmpty = true
      · have hk : keptExt u = none := by simp [keptExt, hre, he]
        simp only [List.filterMap_cons, hk, he, if_pos rfl]
        exact ih n
      · have hk : keptExt u = some (stripLarge e) := by simp [keptExt, hre, he]
        simp only [List.filterMap_cons, hk, if_neg he]
        rw [ih (n + 1)]
        simp [List.enumFrom_cons]

end Starboard

namespace Starboard

lemma archiveLe_trans : ∀ a b c : MessageArchive,
    archiveLe a b = true → archiveLe b c = true → archiveLe a c = true := by
  intro a b c hab hbc
  rw [archiveLe, decide_eq_true_eq] at *
  exact Nat.le_trans hab hbc

lemma archiveLe_total : ∀ a b : MessageArchive,
    (archiveLe a b || archiveLe b a) = true := by
  intro a b
  rw [Bool.or_eq_true, archiveLe, archiveLe, decide_eq_true_eq, decide_eq_true_eq]
  exact Nat.le_total _ _

lemma joinBlankLine_eq_nil_iff : ∀ l : List Str,
    joinBlankLine l = [] ↔ l.length ≤ 1 ∧ ∀ s ∈ l, s = [] := by
  intro l
  match l with
  | [] => simp [joinBlankLine]
  | [s] => simp [joinBlankLine]
  | s :: t :: r =>
    rw [joinBlankLine]
    constructor
    · intro h
      simp at h
    · rintro ⟨h1, -⟩
      exfalso
      simp only [List.length_cons] at h1
      omega

lemma getTextContent_none_iff (m : Msg) :
    getTextContent m = none ↔
      (m.embeds.length ≤ 1 ∧ ∀ e ∈ m.embeds, e.description.getD [] = []) := by
  rw [getTextContent]
  by_cases h : (joinBlankLine (m.embeds.map fun e => e.description.getD [])).length > 0
  · simp only [h, if_pos h]
    constructor
    · intro hc; cases hc
    · intro ⟨h1, h2⟩
      have : joinBlankLine (m.embeds.map fun e => e.description.getD []) = [] := by
        rw [joinBlankLine_eq_nil_iff]
        constructor
        · simpa using h1
        · intro s hs
          rcases List.mem_map.mp hs with ⟨e, he, rfl⟩
          exact h2 e he
      rw [this] at h
      simp at h
  · rw [if_neg h]
    have hnil : joinBlankLine (m.embeds.map fun e => e.description.getD []) = [] := by
      rw [← List.length_eq_zero]
      omega
    rw [joinBlankLine_eq_nil_iff] at hnil
    constructor
    · intro _
      refine ⟨by simpa using hnil.1, ?_⟩
      intro e he
      exact hnil.2 _ (List.mem_map.mpr ⟨e, he, rfl⟩)
    · intro _
      rfl

lemma walkTrace_complete (fuel : Nat) (env : Env) (aidGen : Nat → Str) :
    ∀ (ms : List Msg) (n : Nat) (c0 : Collection) (s : Collection),
      s ∈ walkTrace fuel env aidGen n c0 ms →
      ∃ pre suf k, ms = pre ++ suf ∧
        walkRun fuel env aidGen n c0 pre = .ok (k, s) := by
  intro ms
  induction ms with
  | nil =>
    intro n c0 s hs
    rw [walkTrace] at hs
    rcases List.mem_singleton.mp hs with rfl
    exact ⟨[], [], n, rfl, rfl⟩
  | cons m rest ih =>
    intro n c0 s hs
    rw [walkTrace] at hs
    rcases List.mem_cons.mp hs with rfl | hs'
    · exact ⟨[], m :: rest, n, rfl, rfl⟩
    · by_cases hskip : (!isStarboardMessage m || hasKey c0 m.id) = true
      · rw [if_pos hskip] at hs'
        obtain ⟨pre, suf, k, hsplit, hrun⟩ := ih n c0 s hs'
        refine ⟨m :: pre, suf, k, by simp [hsplit], ?_⟩
        rw [walkRun, if_pos hskip]
        exact hrun
      · rw [if_neg hskip] at hs'
        cases hp : processMessage fuel env (aidGen n) m with
        | error e =>
          rw [hp] at hs'
          cases hs'
        | ok r =>
          rw [hp] at hs'
          obtain ⟨pre, suf, k, hsplit, hrun⟩ := ih (n + 1) (c0 ++ [(m.id, r)]) s hs'
          refine ⟨m :: pre, suf, k, by simp [hsplit], ?_⟩
          rw [walkRun, if_neg hskip, hp]
          exact hrun

end Starboard

namespace Starboard

/-- Claim C1, as stated, is false: `isStarboardMessage` accepts a bot
message whose body starts with `'⭐ **'` but carries no bold integer at all,
while the claimed pattern (star glyph, space, `'**'`, digits, `'**'`)
rejects it. -/
theorem C1_counterexample :
    isStarboardMessage msgNoDigits = true ∧
      (specArchivablePattern msgNoDigits.content && msgNoDigits.authorBot) = false := by
  refine ⟨by decide, by decide⟩

/-- Claim C1, amended: `isArchivable` is true iff the body begins with the
fixed four-character `'⭐ **'` start (digits and a closing `'**'` are NOT
required) and the author is automated; every body matching the spec's full
bold-integer pattern in particular has that start, so the code accepts a
superset of the spec pattern. -/
theorem C1_archivable_start_only (m : Msg) :
    isStarboardMessage m = (strStartsWith m.content starGlyphBold && m.authorBot) ∧
      (specArchivablePattern m.content = true →
        strStartsWith m.content starGlyphBold = true) := by
  refine ⟨rfl, ?_⟩
  intro h
  rw [specArchivablePattern] at h
  exact (Bool.and_eq_true _ _ |>.mp h).1

/-- Claim C2, as stated, is false: the second-tier result for `msgOuter`
contains `pageUrl`, the tier-4 link-button of the cross-referenced message
`msgLinked`, although `msgLinked`'s tier 1-3 attachments are empty — the
extraction is the full recursive resolution, not tiers 1-3 one hop deep. -/
theorem C2_counterexample :
    getAdvancedAttachments 0 envHop msgOuter = [some pageUrl] ∧
      messageLinks msgOuter = [permalinkHop] ∧
      resolveLink envHop permalinkHop = .ok (some msgLinked) ∧
      specOneHopSecondTier envHop msgOuter = [] := by
  refine ⟨rfl, rfl, rfl, rfl⟩

/-- Claim C2, amended: when every permalink fetch succeeds, second-tier
resolution appends, for each fetched cross-referenced message, that
message's FULL resolved attachment list (the same resolution procedure
applied recursively, including its tier-4 buttons and its own second-tier
resolution), contiguously, in link order. -/
theorem C2_full_recursive_hop (fuel : Nat) (env : Env) (m : Msg) (link : Str)
    (m' : Msg) (hmem : link ∈ messageLinks m)
    (hok : ((messageLinks m).map (resolveLink env)).any isFetchError = false)
    (hres : resolveLink env link = .ok (some m')) :
    getAttachmentUrls fuel env m' <:+: getAdvancedAttachments fuel env m :=
  advancedOf_contrib (fun mm => getAttachmentUrls fuel env mm) env m link m'
    hmem hok hres

/-- Witness for C2's amended theorem at `msgOuter` in `envHop`. -/
theorem C2_full_recursive_hop_witness :
    permalinkHop ∈ messageLinks msgOuter ∧
      ((messageLinks msgOuter).map (resolveLink envHop)).any isFetchError = false ∧
      resolveLink envHop permalinkHop = .ok (some msgLinked) ∧
      getAttachmentUrls 0 envHop msgLinked <:+: getAdvancedAttachments 0 envHop msgOuter :=
  ⟨by decide, by rfl, by rfl,
    C2_full_recursive_hop 0 envHop msgOuter permalinkHop msgLinked
      (by decide) (by rfl) (by rfl)⟩

/-- Claim C3: for every message (and any recursion fuel), the resolved
attachment URL sequence is exactly the direct attachments, then the embed
images in embed order, then the embed videos in embed order, then the
link-button URLs that are neither CDN URLs nor same-platform permalinks,
then the second-tier attachments. -/
theorem C3_resolution_order (fuel : Nat) (env : Env) (m : Msg) :
    getAttachmentUrls fuel env m =
      (directAttachments m ++ embedImages m ++ embedVideos m ++
        plainLinkButtons m).map some ++ secondTier fuel env m := by
  rw [getAttachmentUrls_eq, specTier123]

/-- Claim C4, as stated, is false: `videoUrl`'s path segment `video` has no
determinable extension (per the claim's own parenthetical), yet the code
keeps the URL, deriving the "extension" `com/video` from the last dot of
the whole URL. -/
theorem C4_counterexample :
    buildAttachments "a".toList 1 0 [some videoUrl] =
      .ok [{ url := videoUrl, localFile := "a_1-stars_0.com/video".toList }] ∧
      specPathSegmentExt videoUrl = none := by
  refine ⟨rfl, rfl⟩

/-- Claim C4, amended: a URL is dropped iff the text after the last dot of
the WHOLE URL (cut at the first `'?'` after it) is empty; each kept URL gets
filename `{archiveId}_{stars}-stars_{index}.{ext}` where `ext` is that text
with a trailing `':large'` removed and `index` is the 0-based position among
kept URLs only (skipped URLs do not consume an index). -/
theorem C4_kept_extension_indexing (aid : Str) (stars : Nat) (urls : List Str) :
    buildAttachments aid stars 0 (urls.map some) =
      .ok (((urls.filterMap fun u => (keptExt u).map fun e => (u, e)).enum).map
        fun p => { url := p.2.1, localFile := localFileName aid stars p.1 p.2.2 }) :=
  buildAttachments_of_defined aid stars urls 0

/-- Claim C5, as stated, is false: the snowflakes `2^53` and `2^53 + 1` are
distinct digit strings with distinct integer values, but both coerce to the
same IEEE-754 double, so the comparator returns 0 and the stable sort
leaves the larger value first. -/
theorem C5_counterexample :
    saveMessageCollection [(snow993, recOf snow993), (snow992, recOf snow992)] =
      [recOf snow993, recOf snow992] ∧
      digitsToNat snow992 < digitsToNat snow993 ∧ snow992 ≠ snow993 := by
  refine ⟨?_, by decide, by decide⟩
  rw [saveMessageCollection]
  exact @List.mergeSort_of_sorted _ archiveLe _ (by decide)

/-- Claim C5, amended: every flush serializes the records sorted stably
ascending by the double-precision (`Number`) value of `sourceId` — a
permutation of the collection's values that is pairwise ordered by the
float comparator; distinct sourceIds whose values collide as doubles (at or
above 2^53) keep their insertion order instead of integer order. -/
theorem C5_flush_sorted_by_double (c : Collection) :
    (saveMessageCollection c).Perm (c.map Prod.snd) ∧
      (saveMessageCollection c).Pairwise (fun a b => archiveLe a b = true) :=
  ⟨List.mergeSort_perm _ _,
    List.sorted_mergeSort archiveLe_trans archiveLe_total _⟩

/-- Claim C6: a message whose id is already in the collection is a no-op
skip — the collection is unchanged, no record is added or modified, and no
download is performed. -/
theorem C6_duplicate_skip (fuel : Nat) (env : Env) (aid : Str)
    (c : Collection) (m : Msg) (h : hasKey c m.id = true) :
    walkStep fuel env aid c m = .ok (c, ([] : List Str)) := by
  by_cases hs : isStarboardMessage m = true <;> simp [walkStep, hs, h]

/-- Witness for C6 at a concrete one-record collection. -/
theorem C6_duplicate_skip_witness :
    hasKey [("7".toList, recSimple)] msgSimple.id = true ∧
      walkStep 0 env0 "b".toList [("7".toList, recSimple)] msgSimple =
        .ok ([("7".toList, recSimple)], ([] : List Str)) :=
  ⟨by decide,
    C6_duplicate_skip 0 env0 "b".toList [("7".toList, recSimple)] msgSimple
      (by decide)⟩

/-- Claim C7, as stated, is false: a message with two embeds, both lacking
a description, yields `textContent` `"\n\n"` (the join separator), not
absent. -/
theorem C7_counterexample :
    getTextContent msgTwoEmbeds = some ['\n', '\n'] ∧
      ∀ e ∈ msgTwoEmbeds.embeds, e.description = none := by
  refine ⟨rfl, by decide⟩

/-- Claim C7, amended: `textContent` is the blank-line join of each embed's
description-or-empty-string; it is absent exactly when that join is empty,
i.e. when the message has at most one embed and every embed's description
is missing or empty (with two or more embeds the separators alone make it
present). -/
theorem C7_text_absent_iff (m : Msg) :
    (getTextContent m = none ↔
      (m.embeds.length ≤ 1 ∧ ∀ e ∈ m.embeds, e.description.getD [] = [])) ∧
      (getTextContent m = none ∨
        getTextContent m = some (joinBlankLine
          (m.embeds.map fun e => e.description.getD []))) := by
  refine ⟨getTextContent_none_iff m, ?_⟩
  rw [getTextContent]
  by_cases h : (joinBlankLine (m.embeds.map fun e => e.description.getD [])).length > 0
  · right
    rw [if_pos h]
  · left
    rw [if_neg h]

/-- Claim C8: if any cross-reference fetch (channel or message) fails, the
whole second-tier result degrades to the empty list, and the message's
resolution is its tier 1-4 attachments intact, with nothing appended. -/
theorem C8_fetch_failure_degrades (fuel : Nat) (env : Env) (m : Msg)
    (h : ((messageLinks m).map (resolveLink env)).any isFetchError = true) :
    getAdvancedAttachments fuel env m = [] ∧
      getAttachmentUrls (fuel + 1) env m =
        (directAttachments m ++ embedImages m ++ embedVideos m ++
          plainLinkButtons m).map some := by
  have h1 : getAdvancedAttachments fuel env m = [] :=
    advancedOf_of_fetchError _ env m h
  refine ⟨h1, ?_⟩
  rw [getAttachmentUrls_eq, specTier123]
  have hst : secondTier (fuel + 1) env m = [] := by
    rw [secondTier]
    simp [h1]
  rw [hst, List.append_nil]

/-- Witness for C8 in an environment where every fetch rejects. -/
theorem C8_fetch_failure_degrades_witness :
    ((messageLinks msgOuter).map (resolveLink envFail)).any isFetchError = true ∧
      getAdvancedAttachments 0 envFail msgOuter = [] ∧
      getAttachmentUrls 1 envFail msgOuter =
        (directAttachments msgOuter ++ embedImages msgOuter ++
          embedVideos msgOuter ++ plainLinkButtons msgOuter).map some :=
  ⟨by rfl,
    (C8_fetch_failure_degrades 0 envFail msgOuter (by rfl)).1,
    (C8_fetch_failure_degrades 0 envFail msgOuter (by rfl)).2⟩

/-- Claim C9: every collection state a flush can observe (the states at
message boundaries of the walk) is exactly the result of completely
processing some prefix of the fetched messages — a snapshot contains
precisely the records of fully-completed messages, never a
partially-processed one. -/
theorem C9_flush_only_completed (fuel : Nat) (env : Env) (aidGen : Nat → Str)
    (ms : List Msg) (n : Nat) (c0 : Collection) (s : Collection)
    (hs : s ∈ walkTrace fuel env aidGen n c0 ms) :
    ∃ pre suf k, ms = pre ++ suf ∧
      walkRun fuel env aidGen n c0 pre = .ok (k, s) :=
  walkTrace_complete fuel env aidGen ms n c0 s hs

/-- Witness for C9: the post-processing state of a one-message walk. -/
theorem C9_flush_only_completed_witness :
    [("7".toList, recSimple)] ∈ walkTrace 0 env0 aidGen0 0 [] [msgSimple] ∧
      ∃ pre suf k, [msgSimple] = pre ++ suf ∧
        walkRun 0 env0 aidGen0 0 [] pre = .ok (k, [("7".toList, recSimple)]) :=
  ⟨by decide,
    C9_flush_only_completed 0 env0 aidGen0 [msgSimple] 0 [] [("7".toList, recSimple)]
      (by decide)⟩

/-- Claim C10 is the intent, but the code violates it: when a permalink's
channel is fetched successfully but is not text-based, the second-tier
result keeps the missing message as a JS `undefined` element (the
`!== null` guard does not remove `undefined`), and the subsequent filename
derivation dereferences it and throws a `TypeError`. -/
theorem C10_undefined_element_crash :
    getAttachmentUrls 1 envVoice msgVoiceRef = [none] ∧
      getAttachments 1 envVoice msgVoiceRef "a".toList 5 = .error .typeError := by
  refine ⟨rfl, rfl⟩

end Starboard
